import Mathlib

/-!
Verification of the SMS campaign dispatch module (`ict_ops_odoo_sms`).

The Python models are shallowly embedded. Strings are `List Char` (named
`Str` below), so that character-level operations (the regex-based
whitespace stripping, prefix tests, concatenation of the country code)
are directly expressible and provable. Record models (`sms.campaign`,
`sms.recipient`, `sms.contact`, `sms.blacklist`, `sms.gateway.configuration`,
`africas.talking.sms`) become structures carrying exactly the fields the
verified operations read or write; Odoo-managed fields that the modelled
code never touches (timestamps, currency, ids) are omitted.

Database effects are modelled explicitly: an operation that raises in Odoo
aborts its transaction, so a fallible operation returns `Except e Campaign`
and an `.error` result leaves the caller's state unchanged.
-/

namespace IctOpsSms

/-- Phone numbers and message texts, embedded as lists of characters. -/
abbrev Str := List Char

/-- `re.sub(r'\s+', '', phone)` from `sms_recipient.normalize_phone`:
removes every whitespace character. -/
def stripWS (s : Str) : Str := s.filter (fun c => !c.isWhitespace)

/-- The error raised by `normalize_phone` (a `ValidationError` in the source;
`InvalidPhone` in the specification's taxonomy). -/
inductive NormError
  | invalidPhone
deriving DecidableEq, Repr

/-- `SmsRecipient.normalize_phone` from `src/models/sms_recipient.py`:

```
if not phone: return phone
phone = re.sub(r'\s+', '', phone)
if phone.startswith('+'): return phone
if phone.startswith('0'): return '+254' + phone[1:]
if phone.startswith(('7', '1')): return '+254' + phone
raise ValidationError(...)
```
-/
def normalize_phone (phone : Str) : Except NormError Str :=
  if phone = [] then .ok phone
  else
    match stripWS phone with
    | [] => .error .invalidPhone
    | c :: rest =>
      if c = '+' then .ok (c :: rest)
      else if c = '0' then .ok ('+' :: '2' :: '5' :: '4' :: rest)
      else if c = '7' ∨ c = '1' then .ok ('+' :: '2' :: '5' :: '4' :: c :: rest)
      else .error .invalidPhone

lemma stripWS_mem_not_ws {s : Str} {a : Char} (h : a ∈ stripWS s) :
    (!a.isWhitespace) = true :=
  (List.mem_filter.mp h).2

lemma stripWS_eq_self {s : Str} (h : ∀ a ∈ s, (!a.isWhitespace) = true) :
    stripWS s = s :=
  List.filter_eq_self.mpr h

/-- Every successful output of `normalize_phone` is either empty (only for the
empty input, which the source returns unchanged) or starts with `'+'` and
contains no whitespace. -/
lemma normalize_ok_shape {x y : Str} (h : normalize_phone x = .ok y) :
    (x = [] ∧ y = []) ∨ (y.head? = some '+' ∧ stripWS y = y) := by
  by_cases hx : x = []
  · subst hx
    left
    exact ⟨rfl, by simpa [normalize_phone] using h.symm⟩
  · right
    rw [normalize_phone, if_neg hx] at h
    cases hs : stripWS x with
    | nil => rw [hs] at h; exact absurd h (by simp)
    | cons c rest =>
      rw [hs] at h
      have hnws : ∀ a ∈ c :: rest, (!a.isWhitespace) = true := by
        intro a ha
        exact stripWS_mem_not_ws (hs ▸ ha : a ∈ stripWS x)
      have hrest : ∀ a ∈ rest, (!a.isWhitespace) = true := fun a ha =>
        hnws a (List.mem_cons_of_mem _ ha)
      replace h :
          (if c = '+' then Except.ok (c :: rest)
           else if c = '0' then Except.ok ('+' :: '2' :: '5' :: '4' :: rest)
           else if c = '7' ∨ c = '1' then
             Except.ok ('+' :: '2' :: '5' :: '4' :: c :: rest)
           else (Except.error NormError.invalidPhone : Except NormError Str)) =
            Except.ok y := h
      split_ifs at h with h1 h2 h3
      · obtain rfl : c :: rest = y := by simpa using h
        subst h1
        refine ⟨rfl, stripWS_eq_self hnws⟩
      · obtain rfl : '+' :: '2' :: '5' :: '4' :: rest = y := by simpa using h
        refine ⟨rfl, stripWS_eq_self ?_⟩
        intro a ha
        simp only [List.mem_cons] at ha
        rcases ha with rfl | rfl | rfl | rfl | ha
        · decide
        · decide
        · decide
        · decide
        · exact hrest a ha
      · obtain rfl : '+' :: '2' :: '5' :: '4' :: c :: rest = y := by simpa using h
        refine ⟨rfl, stripWS_eq_self ?_⟩
        intro a ha
        simp only [List.mem_cons] at ha
        rcases ha with rfl | rfl | rfl | rfl | ha
        · decide
        · decide
        · decide
        · decide
        · exact hnws a (List.mem_cons.mpr ha)

/-- A string that starts with `'+'` and contains no whitespace is a fixpoint
of `normalize_phone`. -/
lemma normalize_fixpoint {y : Str} (hh : y.head? = some '+') (hs : stripWS y = y) :
    normalize_phone y = .ok y := by
  cases y with
  | nil => simp at hh
  | cons a t =>
    obtain rfl : a = '+' := by simpa using hh
    rw [normalize_phone, if_neg (by simp), hs]
    simp

/-! ## Suppression registry (`sms.blacklist`) -/

/-- `SMSBlacklist._normalize_phone` from `src/models/sms_blacklist.py`: keeps
digits and `'+'`, then prefixes the country code for the `'0'` trunk form or
for a bare 9-digit subscriber number.  Note this is a distinct (and weaker)
normalizer than `SmsRecipient.normalize_phone`: it never raises and can
return a string without a `'+'` prefix. -/
def bl_normalize_phone (phone : Str) : Str :=
  if phone = [] then []
  else
    let clean := phone.filter (fun c => c.isDigit || c = '+')
    match clean with
    | '+' :: _ => clean
    | '0' :: rest => '+' :: '2' :: '5' :: '4' :: rest
    | _ => if clean.length = 9 then '+' :: '2' :: '5' :: '4' :: clean else clean

/-- The suppression registry state: the stored (already-normalized) phones.
`SMSBlacklist.is_blacklisted` normalizes the query and searches for an exact
match among the stored phones. -/
def is_blacklisted (bl : List Str) (phone : Str) : Bool :=
  bl.contains (bl_normalize_phone phone)

/-! ## Contacts (`sms.contact`) and recipients (`sms.recipient`) -/

inductive ContactType
  | student | staff | club | external
deriving DecidableEq, Repr

/-- The fields of `sms.contact` read by roster preparation.  `student_id`
holds the admission number for students (and doubles as the staff id in the
source's `all_staff` branch). -/
structure Contact where
  name : Str
  mobile : Str
  student_id : Str
  contact_type : ContactType
  active : Bool
  opt_in : Bool
deriving DecidableEq, Repr

inductive RecipientType
  | student | staff | other
deriving DecidableEq, Repr

inductive RStatus
  | pending | sent | delivered | failed
deriving DecidableEq, Repr

/-- The fields of `sms.recipient` that the modelled operations read or write.
Timestamps (`sent_date`, `delivered_date`) are Odoo datetimes and are left
out of the embedding; `status`, `personalized_message` and `error_message`
carry the whole verified behaviour.  The source's campaign code fills the
field under the key `phone_number` while the model declares `phone`; the
embedding uses the declared field name `phone` for both. -/
structure Recipient where
  name : Str
  phone : Str
  admission_number : Str
  staff_id : Str
  recipient_type : RecipientType
  status : RStatus
  personalized_message : Str
  error_message : Str
deriving DecidableEq, Repr

/-- The values dict passed to `sms.recipient` `create` by
`action_prepare_recipients`. -/
structure RecipientVals where
  name : Str
  phone : Str
  admission_number : Str
  staff_id : Str
  recipient_type : RecipientType
deriving DecidableEq, Repr

/-- Errors surfaced by roster preparation.  `invalidPhone` is the
`ValidationError` of `normalize_phone`; `duplicatePhone` is the
`unique(phone, campaign_id)` SQL constraint of `sms.recipient`;
`invalidTransition` is the specification's illegal-state error (listed here
so the claims about it can be stated — the source never raises it). -/
inductive PrepError
  | invalidTransition | invalidPhone | duplicatePhone
deriving DecidableEq, Repr

/-- Bulk `create` on `sms.recipient`: each row's phone passes through the
`_check_phone` constraint (normalization, which can raise), a new record
starts in the default status `pending`, and the `unique(phone, campaign_id)`
constraint rejects the batch when two rows end up with the same stored
phone.  An error rolls the whole transaction back. -/
def createRecipients : List RecipientVals → Except PrepError (List Recipient)
  | [] => .ok []
  | v :: vs =>
    match normalize_phone v.phone with
    | .error _ => .error .invalidPhone
    | .ok ph =>
      match createRecipients vs with
      | .error e => .error e
      | .ok rest =>
        if rest.any (fun r => r.phone = ph) then .error .duplicatePhone
        else .ok ({ name := v.name, phone := ph,
                    admission_number := v.admission_number,
                    staff_id := v.staff_id,
                    recipient_type := v.recipient_type,
                    status := .pending,
                    personalized_message := [], error_message := [] } :: rest)

/-! ## Gateway configurations -/

/-- The fields of `sms.gateway.configuration` that endpoint selection reads.
This model has no sandbox/production flag: `_send_africastalking` derives
the environment from the username content. -/
structure GatewayConfig where
  username : Str
  api_key : Str
  sender_id : Str
deriving DecidableEq, Repr

/-- `str.strip()`: drop whitespace from both ends. -/
def pyStrip (s : Str) : Str :=
  ((s.dropWhile Char.isWhitespace).reverse.dropWhile Char.isWhitespace).reverse

/-- The sandbox test of `_send_africastalking`
(`self.username and self.username.strip().lower() == 'sandbox'`). -/
def send_africastalking_is_sandbox (g : GatewayConfig) : Bool :=
  !g.username.isEmpty &&
    (pyStrip g.username).map Char.toLower = ('s' :: 'a' :: 'n' :: 'd' :: 'b' :: 'o' :: 'x' :: [])

/-- The endpoint URL chosen by `_send_africastalking` in
`src/models/sms_gateway_config.py`. -/
def send_africastalking_url (g : GatewayConfig) : Str :=
  if send_africastalking_is_sandbox g then
    "https://api.sandbox.africastalking.com/version1/messaging".toList
  else
    "https://api.africastalking.com/version1/messaging".toList

/-- The fields of `africas.talking.sms` (`src/models/sms_api.py`) relevant to
endpoint selection: this model does carry an explicit sandbox flag. -/
structure ATConfig where
  username : Str
  api_key : Str
  sender_id : Str
  is_sandbox : Bool
deriving DecidableEq, Repr

/-- `AfricasTalkingSMS.get_api_url` from `src/models/sms_api.py`.  The
sandbox branch of the source contains a stray `": "` at the start of the
URL literal; the embedding reproduces it verbatim. -/
def get_api_url (sandbox_flag : Bool) : Str :=
  if sandbox_flag then
    ": https://api.sandbox.africastalking.com/version1/messaging/bulk".toList
  else
    "https://api.africastalking.com/version1/messaging/bulk".toList

/-- `AfricasTalkingSMS.send_sms` resolves its endpoint as
`self.get_api_url(self.is_sandbox)`. -/
def at_send_url (cfg : ATConfig) : Str := get_api_url cfg.is_sandbox

/-! ## Campaigns (`sms.campaign`) -/

inductive CStatus
  | draft | scheduled | in_progress | completed | failed | cancelled
deriving DecidableEq, Repr

/-- The fields of `sms.campaign` that the verified operations touch.
`total_recipients` and `pending_count` are computed fields
(`_compute_recipient_count`) derived from `recipients`, so they are not
stored here; `recipients` embeds the `recipient_ids` one2many. -/
structure Campaign where
  status : CStatus
  message : Str
  personalized : Bool
  recipients : List Recipient
  sent_count : Nat
  failed_count : Nat
  gateway_id : Option GatewayConfig
deriving DecidableEq, Repr

/-- Fuel-indexed core of Python's `str.replace`: replaces every
non-overlapping occurrence of `pat` left to right, never rescanning the
replacement text.  The fuel is the length of the subject string, which
bounds the number of recursive steps because each step consumes at least
one subject character (the patterns used below are nonempty). -/
def replaceAllAux (pat repl : Str) : Nat → Str → Str
  | 0, s => s
  | _ + 1, [] => []
  | n + 1, c :: cs =>
    if pat ≠ [] ∧ pat.isPrefixOf (c :: cs) then
      repl ++ replaceAllAux pat repl n ((c :: cs).drop pat.length)
    else c :: replaceAllAux pat repl n cs

/-- Python `s.replace(pat, repl)`. -/
def replaceAll (pat repl s : Str) : Str := replaceAllAux pat repl s.length s

/-- The personalization step of `action_send`: when `personalized` is set the
template's `\x7bname\x7d`, `\x7badmission_number\x7d` and `\x7bstaff_id\x7d`
tokens are substituted, in that order, by the recipient's fields (`or ''` in
the source maps a missing value to the empty string, which the `Str`
embedding already represents); otherwise the template is reused verbatim. -/
def render_message (personalized : Bool) (template : Str) (r : Recipient) : Str :=
  if personalized then
    replaceAll ('{' :: 's' :: 't' :: 'a' :: 'f' :: 'f' :: '_' :: 'i' :: 'd' :: '}' :: [])
      r.staff_id
      (replaceAll ('{' :: 'a' :: 'd' :: 'm' :: 'i' :: 's' :: 's' :: 'i' :: 'o' :: 'n' ::
          '_' :: 'n' :: 'u' :: 'm' :: 'b' :: 'e' :: 'r' :: '}' :: [])
        r.admission_number
        (replaceAll ('{' :: 'n' :: 'a' :: 'm' :: 'e' :: '}' :: []) r.name template))
  else template

/-- The outcome of one `gateway_id.send_sms` call as `action_send` observes
it: `success` is `(True, result)`, `gwFailure` is `(False, result)`, and
`exn` is a raised exception caught by the surrounding `try`/`except`. -/
inductive SendOutcome
  | success
  | gwFailure (msg : Str)
  | exn (msg : Str)

/-- The gateway as an oracle: outcome of sending a message to a phone. -/
abbrev Gateway := Str → Str → SendOutcome

/-- The per-recipient body of the dispatch loop in `action_send`: render and
store the personalized message, call the gateway, then write `sent` (gateway
success) or `failed` together with the error text (gateway failure or caught
exception).  The boolean reports which campaign counter the iteration
increments.  (`sent_date` is an Odoo datetime and is outside the
embedding.) -/
def dispatchOne (personalized : Bool) (template : Str) (gw : Gateway)
    (r : Recipient) : Recipient × Bool :=
  let msg := render_message personalized template r
  let r1 := { r with personalized_message := msg }
  match gw r.phone msg with
  | .success => ({ r1 with status := .sent }, true)
  | .gwFailure m => ({ r1 with status := .failed, error_message := m }, false)
  | .exn m => ({ r1 with status := .failed, error_message := m }, false)

/-- The dispatch loop of `action_send` over the campaign's recipient list:
the source selects `status == 'pending'`, walks that selection in batches of
100 and sends one gateway call per recipient, leaving non-pending records
untouched.  Since every call is per-recipient, the batch boundaries carry no
behaviour and the loop is one ordered pass.  Returns the updated recipient
list and the totals added to `sent_count` and `failed_count`. -/
def processRecipients (personalized : Bool) (template : Str) (gw : Gateway) :
    List Recipient → List Recipient × Nat × Nat
  | [] => ([], 0, 0)
  | r :: rs =>
    let rest := processRecipients personalized template gw rs
    if r.status = .pending then
      let pr := dispatchOne personalized template gw r
      (pr.1 :: rest.1,
       (if pr.2 then rest.2.1 + 1 else rest.2.1),
       (if pr.2 then rest.2.2 else rest.2.2 + 1))
    else (r :: rest.1, rest.2.1, rest.2.2)

/-- The errors `action_send` can raise before dispatching (both are
`UserError`s in the source).  `invalidTransition` is again listed only so
the claims about it can be stated; no branch of the source produces it. -/
inductive SendError
  | noRecipients | noGatewayConfigured | invalidTransition
deriving DecidableEq, Repr

/-- `SMSCampaign.action_send` from `src/models/sms_campaign.py`: reject when
the roster is empty or no gateway is configured; otherwise set the status to
`in_progress` (the source's assignment is the truncated literal `'in_` — a
broken line whose evident intent, and the value every later read assumes,
is `'in_progress'`), run the dispatch loop over the pending recipients,
accumulate the counters, and finish in `completed` unconditionally.  No
branch consults the current status. -/
def action_send (c : Campaign) (gw : Gateway) : Except SendError Campaign :=
  if c.recipients = [] then .error .noRecipients
  else
    match c.gateway_id with
    | none => .error .noGatewayConfigured
    | some _ =>
      let res := processRecipients c.personalized c.message gw c.recipients
      .ok { c with status := .completed,
                   recipients := res.1,
                   sent_count := c.sent_count + res.2.1,
                   failed_count := c.failed_count + res.2.2 }

/-- The candidate selection and values dicts built by
`action_prepare_recipients` (its `all_students` audience branch; the other
branches differ only in the search domain and the values dict, not in
control flow): active, opted-in student contacts whose mobile is not
blacklisted. -/
def prepRows (contacts : List Contact) (bl : List Str) : List RecipientVals :=
  ((contacts.filter (fun k =>
      k.contact_type = ContactType.student && k.active && k.opt_in)).filter
    (fun k => !is_blacklisted bl k.mobile)).map (fun k =>
      { name := k.name, phone := k.mobile, admission_number := k.student_id,
        staff_id := [], recipient_type := RecipientType.student })

/-- `SMSCampaign.action_prepare_recipients` from `src/models/sms_campaign.py`:
`self.recipient_ids.unlink()` first discards the whole existing roster, then
the surviving candidates (`prepRows`) are bulk-created as `pending`
recipients, so the final roster is exactly the freshly created batch.  No
branch consults the campaign status.  An error from `create` rolls the
transaction (including the `unlink`) back, so an `.error` result leaves the
campaign unchanged. -/
def action_prepare_recipients (c : Campaign) (contacts : List Contact)
    (bl : List Str) : Except PrepError Campaign :=
  match createRecipients (prepRows contacts bl) with
  | .error e => .error e
  | .ok recs => .ok { c with recipients := recs }

/-- `_compute_success_rate` from `src/models/sms_campaign.py`, with the
float arithmetic embedded in `ℚ`. -/
def compute_success_rate (sent_count total_recipients : Nat) : ℚ :=
  if 0 < total_recipients then
    ((sent_count : ℚ) / (total_recipients : ℚ)) * 100
  else 0

/-- The stored `success_rate` of a campaign; `total_recipients` is the
computed field `len(recipient_ids)`. -/
def campaign_success_rate (c : Campaign) : ℚ :=
  compute_success_rate c.sent_count c.recipients.length

/-! ## Operation sequences -/

/-- The operations of the campaign dispatch engine that mutate a campaign,
with their external inputs (the resolved contact store, the suppression
registry, the gateway oracle). -/
inductive Op
  | prepare (contacts : List Contact) (bl : List Str)
  | send (gw : Gateway)

def Op.isPrep : Op → Bool
  | .prepare _ _ => true
  | _ => false

def Op.isSend : Op → Bool
  | .send _ => true
  | _ => false

/-- One user action: an operation that raises leaves the campaign unchanged
(the transaction rolls back) and the user may continue. -/
def applyOp (c : Campaign) : Op → Campaign
  | .prepare ks bl =>
    match action_prepare_recipients c ks bl with
    | .ok c' => c'
    | .error _ => c
  | .send gw =>
    match action_send c gw with
    | .ok c' => c'
    | .error _ => c

/-- A freshly created campaign: status defaults to `draft`, the counters to
`0`, and the roster is empty. -/
def initialCampaign (msg : Str) (personalized : Bool)
    (g : Option GatewayConfig) : Campaign :=
  { status := .draft, message := msg, personalized := personalized,
    recipients := [], sent_count := 0, failed_count := 0, gateway_id := g }

def execOps (c : Campaign) (ops : List Op) : Campaign := ops.foldl applyOp c

/-- The number of recipients in `pending` status (the computed field
`pending_count`). -/
def countPending (l : List Recipient) : Nat :=
  (l.filter (fun r => r.status = RStatus.pending)).length

/-- The state `action_send` commits when its preconditions pass. -/
def dispatchResult (c : Campaign) (gw : Gateway) : Campaign :=
  { c with status := .completed,
           recipients := (processRecipients c.personalized c.message gw c.recipients).1,
           sent_count :=
             c.sent_count + (processRecipients c.personalized c.message gw c.recipients).2.1,
           failed_count :=
             c.failed_count + (processRecipients c.personalized c.message gw c.recipients).2.2 }

/-! ## Helper lemmas -/

lemma countPending_le (l : List Recipient) : countPending l ≤ l.length :=
  List.length_filter_le _ _

lemma countPending_cons (r : Recipient) (l : List Recipient) :
    countPending (r :: l) =
      (if r.status = RStatus.pending then 1 else 0) + countPending l := by
  unfold countPending
  by_cases h : r.status = RStatus.pending
  · simp [h]
    omega
  · simp [h]

lemma dispatchOne_status (p : Bool) (t : Str) (gw : Gateway) (r : Recipient) :
    (dispatchOne p t gw r).1.status = RStatus.sent ∨
      (dispatchOne p t gw r).1.status = RStatus.failed := by
  unfold dispatchOne
  cases hgw : gw r.phone (render_message p t r) <;> simp [hgw]

lemma processRecipients_length (p : Bool) (t : Str) (gw : Gateway)
    (l : List Recipient) :
    (processRecipients p t gw l).1.length = l.length := by
  induction l with
  | nil => rfl
  | cons r rs ih =>
    unfold processRecipients
    by_cases h : r.status = RStatus.pending <;> simp [h, ih]

lemma processRecipients_counts (p : Bool) (t : Str) (gw : Gateway)
    (l : List Recipient) :
    (processRecipients p t gw l).2.1 + (processRecipients p t gw l).2.2 =
      countPending l := by
  induction l with
  | nil => rfl
  | cons r rs ih =>
    unfold processRecipients
    rw [countPending_cons]
    by_cases h : r.status = RStatus.pending
    · by_cases h2 : (dispatchOne p t gw r).2 <;> simp [h, h2] <;> omega
    · simp [h, ih]

lemma processRecipients_done (p : Bool) (t : Str) (gw : Gateway)
    (l : List Recipient) :
    countPending (processRecipients p t gw l).1 = 0 := by
  induction l with
  | nil => rfl
  | cons r rs ih =>
    unfold processRecipients
    by_cases h : r.status = RStatus.pending
    · rcases dispatchOne_status p t gw r with hs | hs <;>
        simp [h, countPending_cons, hs, ih]
    · simp [h, countPending_cons, ih]

/-- Pointwise effect of the dispatch loop: a pending recipient ends `sent` or
`failed`, a non-pending recipient is untouched. -/
lemma processRecipients_forall2 (p : Bool) (t : Str) (gw : Gateway)
    (l : List Recipient) :
    List.Forall₂ (fun r r' =>
        (r.status = RStatus.pending →
          (r'.status = RStatus.sent ∨ r'.status = RStatus.failed)) ∧
        (¬ r.status = RStatus.pending → r' = r))
      l (processRecipients p t gw l).1 := by
  induction l with
  | nil => exact List.Forall₂.nil
  | cons r rs ih =>
    unfold processRecipients
    by_cases h : r.status = RStatus.pending
    · simp only [h, if_pos]
      exact List.Forall₂.cons
        ⟨fun _ => dispatchOne_status p t gw r, fun hne => absurd h hne⟩ ih
    · simp only [h, if_neg, ite_false]
      exact List.Forall₂.cons ⟨fun hp => absurd hp h, fun _ => rfl⟩ ih

lemma action_send_ok (c : Campaign) (gw : Gateway)
    (h1 : c.recipients ≠ []) (h2 : c.gateway_id.isSome = true) :
    action_send c gw = .ok (dispatchResult c gw) := by
  obtain ⟨g, hg⟩ := Option.isSome_iff_exists.mp h2
  unfold action_send dispatchResult
  rw [if_neg h1, hg]

lemma action_send_ok_inv {c : Campaign} {gw : Gateway} {c' : Campaign}
    (h : action_send c gw = .ok c') :
    c' = dispatchResult c gw ∧ c.recipients ≠ [] ∧ c.gateway_id.isSome = true := by
  unfold action_send at h
  by_cases h1 : c.recipients = []
  · rw [if_pos h1] at h; exact absurd h (by simp)
  · rw [if_neg h1] at h
    cases hgo : c.gateway_id with
    | none => rw [hgo] at h; exact absurd h (by simp)
    | some g =>
      rw [hgo] at h
      replace h :
          Except.ok
            { status := CStatus.completed, message := c.message,
              personalized := c.personalized,
              recipients := (processRecipients c.personalized c.message gw c.recipients).1,
              sent_count :=
                c.sent_count +
                  (processRecipients c.personalized c.message gw c.recipients).2.1,
              failed_count :=
                c.failed_count +
                  (processRecipients c.personalized c.message gw c.recipients).2.2,
              gateway_id := some g } = Except.ok c' := h
      refine ⟨?_, h1, rfl⟩
      have h' := Except.ok.inj h
      rw [← h']
      unfold dispatchResult
      rw [hgo]

/-- Inversion of a successful `createRecipients` on a nonempty batch. -/
lemma createRecipients_cons_ok {v : RecipientVals} {vs : List RecipientVals}
    {recs : List Recipient} (h : createRecipients (v :: vs) = .ok recs) :
    ∃ ph rest,
      normalize_phone v.phone = .ok ph ∧
      createRecipients vs = .ok rest ∧
      rest.any (fun r => r.phone = ph) = false ∧
      recs = { name := v.name, phone := ph,
               admission_number := v.admission_number, staff_id := v.staff_id,
               recipient_type := v.recipient_type, status := .pending,
               personalized_message := [], error_message := [] } :: rest := by
  unfold createRecipients at h
  cases hn : normalize_phone v.phone with
  | error e => rw [hn] at h; exact absurd h (by simp)
  | ok ph =>
    rw [hn] at h
    cases hc : createRecipients vs with
    | error e => rw [hc] at h; exact absurd h (by simp)
    | ok rest =>
      rw [hc] at h
      replace h :
          (if rest.any (fun r => r.phone = ph) then
            (Except.error PrepError.duplicatePhone : Except PrepError (List Recipient))
          else
            .ok ({ name := v.name, phone := ph,
                   admission_number := v.admission_number, staff_id := v.staff_id,
                   recipient_type := v.recipient_type, status := .pending,
                   personalized_message := [], error_message := [] } :: rest)) =
            .ok recs := h
      cases hdup : rest.any (fun r => r.phone = ph) with
      | true => rw [hdup] at h; simp at h
      | false =>
        rw [hdup] at h
        simp only [Bool.false_eq_true, if_false, Except.ok.injEq] at h
        exact ⟨ph, rest, rfl, rfl, hdup, h.symm⟩

lemma createRecipients_pairwise {vs : List RecipientVals} {recs : List Recipient}
    (h : createRecipients vs = .ok recs) :
    recs.Pairwise (fun a b => a.phone ≠ b.phone) := by
  induction vs generalizing recs with
  | nil =>
    obtain rfl : ([] : List Recipient) = recs := by simpa [createRecipients] using h
    exact List.Pairwise.nil
  | cons v vs ih =>
    obtain ⟨ph, rest, hn, hc, hdup, rfl⟩ := createRecipients_cons_ok h
    refine List.Pairwise.cons ?_ (ih hc)
    intro b hb
    have hb' : ¬ (b.phone = ph) := by
      intro hbp
      have : rest.any (fun r => r.phone = ph) = true :=
        List.any_eq_true.mpr ⟨b, hb, by simpa using hbp⟩
      rw [this] at hdup
      exact absurd hdup (by decide)
    simpa using fun hpb => hb' hpb.symm

/-- Every recipient produced by `create` stores the normalized phone of one
of the submitted rows. -/
lemma createRecipients_phones {vs : List RecipientVals} {recs : List Recipient}
    (h : createRecipients vs = .ok recs) :
    ∀ r ∈ recs, ∃ v ∈ vs, normalize_phone v.phone = .ok r.phone := by
  induction vs generalizing recs with
  | nil =>
    obtain rfl : ([] : List Recipient) = recs := by simpa [createRecipients] using h
    intro r hr; simp at hr
  | cons v vs ih =>
    obtain ⟨ph, rest, hn, hc, _, rfl⟩ := createRecipients_cons_ok h
    intro r hr
    rcases List.mem_cons.mp hr with rfl | hr
    · exact ⟨v, List.mem_cons_self _ _, hn⟩
    · obtain ⟨w, hw, hwn⟩ := ih hc r hr
      exact ⟨w, List.mem_cons_of_mem _ hw, hwn⟩

lemma action_prepare_ok_inv {c : Campaign} {ks : List Contact} {bl : List Str}
    {c' : Campaign} (h : action_prepare_recipients c ks bl = .ok c') :
    ∃ recs, createRecipients (prepRows ks bl) = .ok recs ∧
      c' = { c with recipients := recs } := by
  unfold action_prepare_recipients at h
  cases hc : createRecipients (prepRows ks bl) with
  | error e => rw [hc] at h; exact absurd h (by simp)
  | ok recs =>
    rw [hc] at h
    exact ⟨recs, rfl, (Except.ok.inj h).symm⟩

/-- Every row submitted by roster preparation carries the mobile of a
candidate contact that passed the blacklist filter. -/
lemma prepRows_mem {ks : List Contact} {bl : List Str} {v : RecipientVals}
    (hv : v ∈ prepRows ks bl) :
    ∃ k ∈ ks, v.phone = k.mobile ∧ is_blacklisted bl k.mobile = false := by
  unfold prepRows at hv
  obtain ⟨k, hk, rfl⟩ := List.mem_map.mp hv
  obtain ⟨hk1, hk2⟩ := List.mem_filter.mp hk
  refine ⟨k, (List.mem_filter.mp hk1).1, rfl, ?_⟩
  simpa using hk2

/-- The invariant the dispatch loop maintains: settled counters plus the
still-pending recipients never exceed the roster size. -/
def CInv (c : Campaign) : Prop :=
  c.sent_count + c.failed_count + countPending c.recipients ≤ c.recipients.length

lemma applyOp_prepare_counters (c : Campaign) (ks : List Contact)
    (bl : List Str) :
    (applyOp c (.prepare ks bl)).sent_count = c.sent_count ∧
      (applyOp c (.prepare ks bl)).failed_count = c.failed_count := by
  unfold applyOp action_prepare_recipients
  dsimp only
  cases hc : createRecipients (prepRows ks bl) <;> simp

lemma applyOp_send_inv {c : Campaign} (gw : Gateway) (h : CInv c) :
    CInv (applyOp c (.send gw)) := by
  have hred : applyOp c (.send gw) =
      match action_send c gw with
      | .ok c' => c'
      | .error _ => c := rfl
  rw [hred]
  cases hs : action_send c gw with
  | error e => exact h
  | ok c' =>
    obtain ⟨rfl, -, -⟩ := action_send_ok_inv hs
    unfold CInv dispatchResult at *
    have h1 := processRecipients_length c.personalized c.message gw c.recipients
    have h2 := processRecipients_counts c.personalized c.message gw c.recipients
    have h3 := processRecipients_done c.personalized c.message gw c.recipients
    dsimp only at *
    omega

lemma execOps_cons (c : Campaign) (op : Op) (ops : List Op) :
    execOps c (op :: ops) = execOps (applyOp c op) ops := rfl

lemma execOps_append (c : Campaign) (l1 l2 : List Op) :
    execOps c (l1 ++ l2) = execOps (execOps c l1) l2 := by
  unfold execOps
  rw [List.foldl_append]

lemma execOps_preps_counters {ops : List Op}
    (hops : ∀ op ∈ ops, op.isPrep = true) (c : Campaign) :
    (execOps c ops).sent_count = c.sent_count ∧
      (execOps c ops).failed_count = c.failed_count := by
  induction ops generalizing c with
  | nil => exact ⟨rfl, rfl⟩
  | cons op rest ih =>
    cases op with
    | prepare ks bl =>
      rw [execOps_cons]
      have h1 := applyOp_prepare_counters c ks bl
      have h2 := ih (fun o ho => hops o (List.mem_cons_of_mem _ ho))
        (applyOp c (.prepare ks bl))
      exact ⟨h2.1.trans h1.1, h2.2.trans h1.2⟩
    | send gw =>
      have := hops _ (List.mem_cons_self _ _)
      simp [Op.isPrep] at this

lemma execOps_sends_inv {ops : List Op}
    (hops : ∀ op ∈ ops, op.isSend = true) {c : Campaign} (h : CInv c) :
    CInv (execOps c ops) := by
  induction ops generalizing c with
  | nil => exact h
  | cons op rest ih =>
    cases op with
    | send gw =>
      rw [execOps_cons]
      exact ih (fun o ho => hops o (List.mem_cons_of_mem _ ho))
        (applyOp_send_inv gw h)
    | prepare ks bl =>
      have := hops _ (List.mem_cons_self _ _)
      simp [Op.isSend] at this

instance {ε α : Type} [DecidableEq ε] [DecidableEq α] :
    DecidableEq (Except ε α) := fun a b =>
  match a, b with
  | .ok x, .ok y => decidable_of_iff (x = y) (by simp)
  | .error x, .error y => decidable_of_iff (x = y) (by simp)
  | .ok _, .error _ => isFalse (by simp)
  | .error _, .ok _ => isFalse (by simp)

/-! ## Concrete data for the closed instances -/

def exGateway : GatewayConfig :=
  { username := "appuser".toList, api_key := "KEY".toList, sender_id := [] }

def exContact : Contact :=
  { name := "Asha".toList, mobile := "+254700000001".toList,
    student_id := "ADM001".toList, contact_type := .student,
    active := true, opt_in := true }

def exRecipientPending : Recipient :=
  { name := "Asha".toList, phone := "+254700000001".toList,
    admission_number := "ADM001".toList, staff_id := [],
    recipient_type := .student, status := .pending,
    personalized_message := [], error_message := [] }

def gwAllSuccess : Gateway := fun _ _ => .success

def gwAllExn : Gateway := fun _ _ => .exn ('b' :: 'o' :: 'o' :: 'm' :: [])

/-! ## The claims -/

/-- C5 (amended): the normalizer maps `"0712345678"` and `"712345678"` to
`"+254712345678"` and rejects `"abc"` with `InvalidPhone`; every accepted
NONEMPTY input yields a `'+'`-prefixed result, and every nonempty input
matching none of the accepted shapes (leading `'+'`, `'0'`, `'7'` or `'1'`
after whitespace stripping) raises `InvalidPhone`.  The restriction to
nonempty inputs is forced by `c5_empty_input_counterexample`: the source's
`if not phone: return phone` guard accepts the empty input and returns it
without a `'+'` prefix. -/
theorem c5_normalize_contract :
    normalize_phone "0712345678".toList = .ok "+254712345678".toList ∧
    normalize_phone "712345678".toList = .ok "+254712345678".toList ∧
    normalize_phone "abc".toList = .error .invalidPhone ∧
    (∀ x y : Str, x ≠ [] → normalize_phone x = .ok y → y.head? = some '+') ∧
    (∀ x : Str, x ≠ [] →
      (stripWS x).head? ∉ [some '+', some '0', some '7', some '1'] →
      normalize_phone x = .error .invalidPhone) := by
  refine ⟨rfl, rfl, rfl, ?_, ?_⟩
  · intro x y hx h
    rcases normalize_ok_shape h with ⟨hx', -⟩ | ⟨hh, -⟩
    · exact absurd hx' hx
    · exact hh
  · intro x hx hmem
    rw [normalize_phone, if_neg hx]
    cases hs : stripWS x with
    | nil => rfl
    | cons c rest =>
      rw [hs] at hmem
      have hc : ¬ (c = '+' ∨ c = '0' ∨ c = '7' ∨ c = '1') := by
        simpa using hmem
      push_neg at hc
      obtain ⟨h1, h2, h3, h4⟩ := hc
      show (if c = '+' then Except.ok (c :: rest)
            else if c = '0' then Except.ok ('+' :: '2' :: '5' :: '4' :: rest)
            else if c = '7' ∨ c = '1' then
              Except.ok ('+' :: '2' :: '5' :: '4' :: c :: rest)
            else (Except.error NormError.invalidPhone : Except NormError Str)) =
          Except.error NormError.invalidPhone
      rw [if_neg h1, if_neg h2, if_neg (not_or.mpr ⟨h3, h4⟩)]

/-- C5 counterexample: the empty string matches none of the accepted shapes,
yet `normalize_phone` accepts it (it does not raise `InvalidPhone`) and the
result does not begin with `'+'` — refuting both universally quantified
clauses of the claim at the concrete input `""`. -/
theorem c5_empty_input_counterexample :
    normalize_phone ([] : Str) = .ok [] ∧ ([] : Str).head? ≠ some '+' :=
  ⟨rfl, by simp⟩

/-- C5 witness: the universal clauses of `c5_normalize_contract`
instantiated at the concrete inputs `"0712345678"` and `"xyz"`. -/
theorem c5_witness :
    ("+254712345678".toList).head? = some '+' ∧
    normalize_phone "xyz".toList = .error .invalidPhone :=
  ⟨c5_normalize_contract.2.2.2.1 "0712345678".toList "+254712345678".toList
      (by decide) rfl,
   c5_normalize_contract.2.2.2.2 "xyz".toList (by decide) (by decide)⟩

/-- C6: `normalize_phone` is idempotent on its successes — whenever
`normalize_phone x` succeeds with `y`, normalizing `y` again succeeds and
returns `y` unchanged, i.e. `normalize(normalize(x)) = normalize(x)`. -/
theorem c6_normalize_idempotent (x y : Str) (h : normalize_phone x = .ok y) :
    normalize_phone y = .ok y := by
  rcases normalize_ok_shape h with ⟨-, rfl⟩ | ⟨hh, hs⟩
  · rfl
  · exact normalize_fixpoint hh hs

/-- C6 witness: idempotence at the concrete input `"0712345678"`. -/
theorem c6_witness :
    normalize_phone "+254712345678".toList = .ok "+254712345678".toList :=
  c6_normalize_idempotent "0712345678".toList "+254712345678".toList rfl

def exCampaignInProgress : Campaign :=
  { status := .in_progress, message := ('H' :: 'i' :: []), personalized := false,
    recipients := [exRecipientPending], sent_count := 0, failed_count := 0,
    gateway_id := some exGateway }

/-- C1 counterexample: a second `send` on a campaign that is already
`in_progress` (nonempty roster, configured gateway) is NOT rejected with
`InvalidTransition`: `action_send` succeeds, dispatches the still-pending
recipient (its status becomes `sent`, `sent_count` grows by one) and ends in
`completed`. -/
theorem c1_counterexample :
    exCampaignInProgress.status = CStatus.in_progress ∧
    action_send exCampaignInProgress gwAllSuccess =
      .ok { exCampaignInProgress with
            status := .completed,
            recipients := [{ exRecipientPending with
              status := .sent, personalized_message := ('H' :: 'i' :: []) }],
            sent_count := 1 } :=
  ⟨rfl, rfl⟩

/-- C1 (amended): `action_send` checks only that the roster is nonempty and
a gateway is configured; it never consults the status, so a second call
while the campaign is `in_progress` does not fail with `InvalidTransition` —
it starts another dispatch over the still-pending recipients and finishes in
`completed`, growing the counters by the number of pending recipients. -/
theorem c1_send_reentrant_not_rejected (c : Campaign) (gw : Gateway)
    (_hst : c.status = CStatus.in_progress)
    (h1 : c.recipients ≠ []) (h2 : c.gateway_id.isSome = true) :
    action_send c gw = .ok (dispatchResult c gw) ∧
    (dispatchResult c gw).status = CStatus.completed ∧
    (dispatchResult c gw).sent_count + (dispatchResult c gw).failed_count =
      c.sent_count + c.failed_count + countPending c.recipients := by
  refine ⟨action_send_ok c gw h1 h2, rfl, ?_⟩
  unfold dispatchResult
  dsimp only
  have := processRecipients_counts c.personalized c.message gw c.recipients
  omega

/-- C1 witness: the amended statement at the concrete `in_progress`
campaign, under an exception-throwing gateway. -/
theorem c1_witness :
    action_send exCampaignInProgress gwAllExn =
      .ok (dispatchResult exCampaignInProgress gwAllExn) ∧
    (dispatchResult exCampaignInProgress gwAllExn).status = CStatus.completed ∧
    (dispatchResult exCampaignInProgress gwAllExn).sent_count +
        (dispatchResult exCampaignInProgress gwAllExn).failed_count =
      exCampaignInProgress.sent_count + exCampaignInProgress.failed_count +
        countPending exCampaignInProgress.recipients :=
  c1_send_reentrant_not_rejected exCampaignInProgress gwAllExn rfl
    (by decide) rfl

/-- C2: after a dispatch invocation completes, every recipient that was
pending at dispatch start is `sent` or `failed` (none remains `pending`;
non-pending recipients are untouched), and the increase of
`sent_count + failed_count` equals the number of recipients that were
pending at dispatch start. -/
theorem c2_dispatch_settles_pending (c : Campaign) (gw : Gateway)
    (c' : Campaign) (h : action_send c gw = .ok c') :
    List.Forall₂ (fun r r' =>
        (r.status = RStatus.pending →
          (r'.status = RStatus.sent ∨ r'.status = RStatus.failed)) ∧
        (¬ r.status = RStatus.pending → r' = r))
      c.recipients c'.recipients ∧
    countPending c'.recipients = 0 ∧
    c'.sent_count + c'.failed_count =
      c.sent_count + c.failed_count + countPending c.recipients := by
  obtain ⟨rfl, -, -⟩ := action_send_ok_inv h
  unfold dispatchResult
  dsimp only
  refine ⟨processRecipients_forall2 _ _ _ _, processRecipients_done _ _ _ _, ?_⟩
  have := processRecipients_counts c.personalized c.message gw c.recipients
  omega

def exCampaignDraft : Campaign :=
  { status := .draft, message := ('H' :: 'i' :: []), personalized := false,
    recipients := [exRecipientPending], sent_count := 0, failed_count := 0,
    gateway_id := some exGateway }

/-- C2 witness: the dispatch postcondition at a concrete one-recipient
campaign under the all-success gateway. -/
theorem c2_witness :
    List.Forall₂ (fun r r' =>
        (r.status = RStatus.pending →
          (r'.status = RStatus.sent ∨ r'.status = RStatus.failed)) ∧
        (¬ r.status = RStatus.pending → r' = r))
      exCampaignDraft.recipients
      (dispatchResult exCampaignDraft gwAllSuccess).recipients ∧
    countPending (dispatchResult exCampaignDraft gwAllSuccess).recipients = 0 ∧
    (dispatchResult exCampaignDraft gwAllSuccess).sent_count +
        (dispatchResult exCampaignDraft gwAllSuccess).failed_count =
      exCampaignDraft.sent_count + exCampaignDraft.failed_count +
        countPending exCampaignDraft.recipients :=
  c2_dispatch_settles_pending exCampaignDraft gwAllSuccess
    (dispatchResult exCampaignDraft gwAllSuccess) rfl

lemma createRecipients_ne_invalid_transition (vs : List RecipientVals) :
    createRecipients vs ≠ .error .invalidTransition := by
  induction vs with
  | nil => simp [createRecipients]
  | cons v vs ih =>
    unfold createRecipients
    cases hn : normalize_phone v.phone with
    | error e => simp
    | ok ph =>
      cases hc : createRecipients vs with
      | error e =>
        intro h
        replace h : Except.error (α := List Recipient) e =
            Except.error PrepError.invalidTransition := h
        rw [hc] at ih
        exact ih (by rw [Except.error.inj h])
      | ok rest =>
        by_cases hdup : rest.any (fun r => r.phone = ph)
        · simp [hdup]
        · simp [hdup]

def exRecipientSent : Recipient := { exRecipientPending with status := .sent }

def exCampaignCompleted : Campaign :=
  { status := .completed, message := ('H' :: 'i' :: []), personalized := false,
    recipients := [exRecipientSent], sent_count := 1, failed_count := 0,
    gateway_id := some exGateway }

/-- C3 counterexample: called on a campaign whose status is `completed`
(not `draft`), `action_prepare_recipients` does not fail with
`InvalidTransition`; it succeeds and discards the existing recipient. -/
theorem c3_counterexample :
    exCampaignCompleted.status ≠ CStatus.draft ∧
    action_prepare_recipients exCampaignCompleted [] [] =
      .ok { exCampaignCompleted with recipients := [] } :=
  ⟨by decide, rfl⟩

/-- C3 (amended): `action_prepare_recipients` performs no status check — in
every status it proceeds (it never fails with `InvalidTransition`) — and it
always first discards the existing roster rather than merging: its result is
independent of whatever recipients were previously attached. -/
theorem c3_prepare_not_gated_and_replaces (c : Campaign) (ks : List Contact)
    (bl : List Str) (rs : List Recipient) :
    action_prepare_recipients c ks bl ≠ .error .invalidTransition ∧
    action_prepare_recipients c ks bl =
      action_prepare_recipients { c with recipients := rs } ks bl := by
  constructor
  · intro h
    unfold action_prepare_recipients at h
    cases hc : createRecipients (prepRows ks bl) with
    | error e =>
      rw [hc] at h
      replace h : Except.error (α := Campaign) e =
          Except.error PrepError.invalidTransition := h
      exact createRecipients_ne_invalid_transition (prepRows ks bl)
        (by rw [hc, Except.error.inj h])
    | ok recs => rw [hc] at h; exact absurd h (by simp)
  · rfl

/-- C3 witness: the amended statement at the concrete `completed` campaign
with one attached recipient. -/
theorem c3_witness :
    action_prepare_recipients exCampaignCompleted [exContact] [] ≠
      .error .invalidTransition ∧
    action_prepare_recipients exCampaignCompleted [exContact] [] =
      action_prepare_recipients { exCampaignCompleted with recipients := [] }
        [exContact] [] :=
  c3_prepare_not_gated_and_replaces exCampaignCompleted [exContact] [] []

def exContactDup1 : Contact := { exContact with mobile := "0712345678".toList }

def exContactDup2 : Contact :=
  { exContact with name := ('B' :: []), mobile := "+254712345678".toList }

/-- C4 counterexample: two candidates whose raw phones normalize to the same
canonical number.  The claimed first-occurrence-wins deduplication does not
happen: instead of completing with the first candidate's recipient, roster
preparation fails with the uniqueness-constraint error. -/
theorem c4_counterexample :
    normalize_phone exContactDup1.mobile = normalize_phone exContactDup2.mobile ∧
    action_prepare_recipients exCampaignDraft [exContactDup1, exContactDup2] [] =
      .error .duplicatePhone :=
  ⟨rfl, rfl⟩

/-- C4 (amended): when roster preparation completes, no two created
recipients share the same (normalized, stored) phone — guaranteed by the
`unique(phone, campaign_id)` constraint, with duplicate candidates making
the operation fail (`c4_counterexample`) rather than being collapsed
first-wins — and, provided the contacts store canonical mobiles (a
`'+'`-prefixed, whitespace-free form, as the `sms.contact` model enforces on
create/write), no created recipient's phone is in the suppression registry
at preparation time. -/
theorem c4_prepared_roster_unique_unsuppressed (c : Campaign)
    (ks : List Contact) (bl : List Str) (c' : Campaign)
    (hclean : ∀ k ∈ ks, k.mobile.head? = some '+' ∧ stripWS k.mobile = k.mobile)
    (h : action_prepare_recipients c ks bl = .ok c') :
    c'.recipients.Pairwise (fun a b => a.phone ≠ b.phone) ∧
    ∀ r ∈ c'.recipients, is_blacklisted bl r.phone = false := by
  obtain ⟨recs, hc, rfl⟩ := action_prepare_ok_inv h
  dsimp only
  refine ⟨createRecipients_pairwise hc, ?_⟩
  intro r hr
  obtain ⟨v, hv, hvn⟩ := createRecipients_phones hc r hr
  obtain ⟨k, hk, hphone, hbl⟩ := prepRows_mem hv
  obtain ⟨hhead, hstrip⟩ := hclean k hk
  have hfix : normalize_phone k.mobile = .ok k.mobile :=
    normalize_fixpoint hhead hstrip
  rw [hphone] at hvn
  have hkm : k.mobile = r.phone := Except.ok.inj (hfix.symm.trans hvn)
  rw [← hkm]
  exact hbl

/-- C4 witness: the amended statement at one canonical-mobile candidate with
an empty registry. -/
theorem c4_witness :
    exCampaignDraft.recipients.Pairwise (fun a b => a.phone ≠ b.phone) ∧
    ∀ r ∈ exCampaignDraft.recipients, is_blacklisted [] r.phone = false :=
  c4_prepared_roster_unique_unsuppressed exCampaignDraft [exContact] []
    exCampaignDraft (by decide) rfl

/-- The reachable trace refuting C7: prepare a one-contact roster, dispatch
it successfully, then re-prepare against an empty candidate set. -/
def c7trace : List Op :=
  [.prepare [exContact] [], .send gwAllSuccess, .prepare [] []]

/-- C7 counterexample: roster re-preparation does NOT reset the counters.
After dispatching one recipient (`sent_count = 1`) and re-preparing the
roster to an empty candidate set, `sent_count + failed_count = 1` exceeds
the `0` remaining recipients, violating the claimed invariant on a
reachable prepare/dispatch sequence. -/
theorem c7_counterexample :
    ¬ ((execOps exCampaignDraft c7trace).sent_count +
        (execOps exCampaignDraft c7trace).failed_count ≤
        (execOps exCampaignDraft c7trace).recipients.length) := by
  decide

/-- C7 (amended): the counters are never reset — `action_prepare_recipients`
does not touch them — so the invariant `sent_count + failed_count ≤ total
recipients` can be violated once a roster re-preparation follows a dispatch
(`c7_counterexample`).  The invariant does hold after each operation of
every reachable sequence in which all roster preparations precede all
dispatches. -/
theorem c7_counters_bounded_without_reprepare (msg : Str) (p : Bool)
    (g : Option GatewayConfig) (preps sends : List Op) (n : Nat)
    (hp : ∀ op ∈ preps, op.isPrep = true)
    (hs : ∀ op ∈ sends, op.isSend = true) :
    (execOps (initialCampaign msg p g) ((preps ++ sends).take n)).sent_count +
      (execOps (initialCampaign msg p g) ((preps ++ sends).take n)).failed_count ≤
      (execOps (initialCampaign msg p g) ((preps ++ sends).take n)).recipients.length := by
  by_cases hn : n ≤ preps.length
  · rw [List.take_append_of_le_length hn]
    have hz := @execOps_preps_counters (preps.take n)
      (fun op ho => hp op (List.take_subset n preps ho)) (initialCampaign msg p g)
    rw [hz.1, hz.2]
    simp [initialCampaign]
  · push_neg at hn
    rw [List.take_append_eq_append_take,
      List.take_of_length_le (le_of_lt hn), execOps_append]
    have hz := execOps_preps_counters hp (initialCampaign msg p g)
    have h0 : CInv (execOps (initialCampaign msg p g) preps) := by
      unfold CInv
      rw [hz.1, hz.2]
      simpa [initialCampaign] using
        countPending_le (execOps (initialCampaign msg p g) preps).recipients
    have hfin := @execOps_sends_inv (sends.take (n - preps.length))
      (fun op ho => hs op (List.take_subset (n - preps.length) sends ho))
      (execOps (initialCampaign msg p g) preps) h0
    unfold CInv at hfin
    omega

/-- C7 witness: the amended invariant at the concrete two-operation trace
(prepare one contact, then dispatch it). -/
theorem c7_witness :
    (execOps (initialCampaign ('H' :: 'i' :: []) false (some exGateway))
        (([Op.prepare [exContact] []] ++ [Op.send gwAllSuccess]).take 2)).sent_count +
      (execOps (initialCampaign ('H' :: 'i' :: []) false (some exGateway))
        (([Op.prepare [exContact] []] ++ [Op.send gwAllSuccess]).take 2)).failed_count ≤
      (execOps (initialCampaign ('H' :: 'i' :: []) false (some exGateway))
        (([Op.prepare [exContact] []] ++ [Op.send gwAllSuccess]).take 2)).recipients.length :=
  c7_counters_bounded_without_reprepare ('H' :: 'i' :: []) false
    (some exGateway) [Op.prepare [exContact] []] [Op.send gwAllSuccess] 2
    (by intro op ho
        rcases List.mem_singleton.mp ho with rfl
        rfl)
    (by intro op ho
        rcases List.mem_singleton.mp ho with rfl
        rfl)

/-- C8: once dispatch starts (nonempty roster, configured gateway, at least
one pending recipient, i.e. at least one batch is attempted), per-recipient
gateway failures never abort the loop: `action_send` returns normally — no
exception propagates — and the campaign ends in `completed`, never `failed`,
for EVERY gateway oracle, including ones that fail or throw for every
recipient (so in particular with nonzero `failed_count`). -/
theorem c8_dispatch_completes_despite_failures (c : Campaign) (gw : Gateway)
    (h1 : c.recipients ≠ []) (h2 : c.gateway_id.isSome = true)
    (_h3 : countPending c.recipients ≠ 0) :
    action_send c gw = .ok (dispatchResult c gw) ∧
    (dispatchResult c gw).status = CStatus.completed ∧
    (dispatchResult c gw).status ≠ CStatus.failed :=
  ⟨action_send_ok c gw h1 h2, rfl, by simp [dispatchResult]⟩

/-- C8 witness: the concrete draft campaign dispatched through a gateway
that throws on every call still completes, with `failed_count = 1`. -/
theorem c8_witness :
    (action_send exCampaignDraft gwAllExn = .ok (dispatchResult exCampaignDraft gwAllExn) ∧
      (dispatchResult exCampaignDraft gwAllExn).status = CStatus.completed ∧
      (dispatchResult exCampaignDraft gwAllExn).status ≠ CStatus.failed) ∧
    (dispatchResult exCampaignDraft gwAllExn).failed_count = 1 :=
  ⟨c8_dispatch_completes_despite_failures exCampaignDraft gwAllExn
      (by decide) rfl (by decide),
   rfl⟩

def exGatewaySandbox : GatewayConfig :=
  { username := "sandbox".toList, api_key := "KEY".toList, sender_id := [] }

def exGatewayAlice : GatewayConfig :=
  { username := "alice".toList, api_key := "KEY".toList, sender_id := [] }

/-- C9 counterexample: two `sms.gateway.configuration` records that differ
solely in credential content (the username) select different endpoint URLs:
that model has no sandbox flag at all, and `_send_africastalking` infers the
environment from whether the username content is `'sandbox'`. -/
theorem c9_counterexample :
    exGatewaySandbox.api_key = exGatewayAlice.api_key ∧
    exGatewaySandbox.sender_id = exGatewayAlice.sender_id ∧
    send_africastalking_url exGatewaySandbox ≠
      send_africastalking_url exGatewayAlice := by
  refine ⟨rfl, rfl, ?_⟩
  decide

/-- C9 (amended): only `africas.talking.sms` (`sms_api.py`) selects its
endpoint from an explicit configuration flag — same `is_sandbox` flag means
same URL whatever the credentials.  `sms.gateway.configuration`
(`sms_gateway_config.py`) has no such flag and derives the endpoint from
username content: configurations with the same username (in particular ones
differing solely in api key) select the same endpoint, but changing the
username alone can switch the endpoint (`c9_counterexample`). -/
theorem c9_endpoint_selection (a1 a2 : ATConfig) (g1 g2 : GatewayConfig)
    (ha : a1.is_sandbox = a2.is_sandbox) (hg : g1.username = g2.username) :
    at_send_url a1 = at_send_url a2 ∧
    send_africastalking_url g1 = send_africastalking_url g2 := by
  constructor
  · unfold at_send_url
    rw [ha]
  · unfold send_africastalking_url send_africastalking_is_sandbox
    rw [hg]

/-- C9 witness: the amended statement at two flag-equal AT configurations
with different credentials and two username-equal gateway configurations
with different api keys. -/
theorem c9_witness :
    at_send_url { username := "u1".toList, api_key := "k1".toList,
                  sender_id := [], is_sandbox := true } =
      at_send_url { username := "u2".toList, api_key := "k2".toList,
                    sender_id := [], is_sandbox := true } ∧
    send_africastalking_url exGatewayAlice =
      send_africastalking_url { exGatewayAlice with api_key := "OTHER".toList } :=
  c9_endpoint_selection
    { username := "u1".toList, api_key := "k1".toList,
      sender_id := [], is_sandbox := true }
    { username := "u2".toList, api_key := "k2".toList,
      sender_id := [], is_sandbox := true }
    exGatewayAlice { exGatewayAlice with api_key := "OTHER".toList }
    rfl rfl

/-- C10: computing the success rate never divides by zero — for a campaign
with no recipients the guard yields `0`, and otherwise the rate is
`sent_count / total_recipients * 100`. -/
theorem c10_success_rate_guarded (c : Campaign) :
    (c.recipients.length = 0 → campaign_success_rate c = 0) ∧
    (c.recipients.length ≠ 0 →
      campaign_success_rate c =
        (c.sent_count : ℚ) / (c.recipients.length : ℚ) * 100) := by
  unfold campaign_success_rate compute_success_rate
  constructor
  · intro h
    rw [if_neg (by omega)]
  · intro h
    rw [if_pos (by omega)]

/-- C10 witness: both branches of the guard at concrete campaigns — an empty
roster yields rate `0`, a half-sent two-recipient roster yields `50`. -/
theorem c10_witness :
    campaign_success_rate { exCampaignDraft with recipients := [] } = 0 ∧
    campaign_success_rate
      { exCampaignDraft with
        recipients := [exRecipientPending, exRecipientSent],
        sent_count := 1 } =
      ((1 : Nat) : ℚ) / ((2 : Nat) : ℚ) * 100 :=
  ⟨(c10_success_rate_guarded { exCampaignDraft with recipients := [] }).1 rfl,
   (c10_success_rate_guarded
      { exCampaignDraft with
        recipients := [exRecipientPending, exRecipientSent],
        sent_count := 1 }).2 (by decide)⟩

end IctOpsSms
